import Mathlib

/-
Verification development for the meme-search image-to-text job worker
(meme_search/image_to_text_generator/app: jobs.py, senders.py, errors.py,
job_queue.py, image_to_text_generator.py).

The jobs table is modelled as a list of rows; SQL statements of the source
are modelled by the corresponding list operations.  HTTP delivery in
senders.py is modelled by an explicit transport outcome per requests.post
call (a response with a status code, or a raised exception); a sender
returns Except, where an error value would mean a Python exception
escaping the sender.  The worker loop body of process_jobs is modelled as
one pure cycle function from the store to the new store, the list of HTTP
requests issued, and the sleep behaviour.
-/

namespace MemeSearch

/-- A row of the jobs table created by init_db in job_queue.py:
id INTEGER PRIMARY KEY AUTOINCREMENT, image_core_id, image_path, model,
retry_count (default 0). -/
structure Job where
  id : Nat
  image_core_id : Nat
  image_path : String
  model : String
  retry_count : Nat
deriving Repr, DecidableEq

/-- The jobs table, one Job per row. -/
abbrev Store := List Job

/-- errors.py: MAX_RETRY_ATTEMPTS = 3. -/
def MAX_RETRY_ATTEMPTS : Nat := 3

/-- errors.py: RETRY_DELAYS = [5, 10, 20]. -/
def RETRY_DELAYS : List Nat := [5, 10, 20]

/-- JSON body of a requests.post call in senders.py: either a status
payload, such as json={"data": {"image_core_id": .., "status": ..}}, or a
description payload json={"data": {"image_core_id": .., "description": ..}}. -/
inductive Payload where
  | statusData (image_core_id : Nat) (status : Nat)
  | descriptionData (image_core_id : Nat) (description : String)
deriving Repr, DecidableEq

/-- One attempted HTTP POST: target url and JSON payload. -/
structure HttpPost where
  url : String
  payload : Payload
deriving Repr, DecidableEq

/-- Outcome of one requests.post call: the server answered with some
status code, or the call raised (timeout, connection error, ...). -/
inductive Transport where
  | completes (status_code : Nat)
  | raises (msg : String)
deriving Repr, DecidableEq

/-- A line written through the logging module. -/
inductive LogEntry where
  | info (msg : String)
  | error (msg : String)
deriving Repr, DecidableEq

/-- What a sender did: the HTTP posts it attempted and the log lines it
wrote, in order. -/
structure SendResult where
  requests : List HttpPost
  logs : List LogEntry
deriving Repr, DecidableEq

/-- A Python try/except Exception block whose handler returns normally:
an exception escaping the body is caught and mapped to a normal result. -/
def pyTry (body : Except String SendResult) (handler : String → SendResult) :
    Except String SendResult :=
  match body with
  | .ok r => .ok r
  | .error e => .ok (handler e)

/-- senders.py description_sender: posts the description payload to
APP_URL + "description_receiver" inside try/except; logs success on a 200
response, a failure line otherwise; the handler logs and returns. -/
def description_sender (image_core_id : Nat) (description : String) (APP_URL : String)
    (t : Transport) : Except String SendResult :=
  let req : HttpPost := ⟨APP_URL ++ "description_receiver",
    .descriptionData image_core_id description⟩
  pyTry
    (match t with
     | .completes code =>
         .ok ⟨[req],
           [if code = 200 then
              .info "SUCCESS: description_sender successfully delivered"
            else
              .info "FAILURE: description_sender failed to deliver"]⟩
     | .raises e => .error e)
    (fun e => ⟨[req], [.error ("FAILURE: description_sender failed with exception " ++ e)]⟩)

/-- senders.py status_sender: posts the status payload to
APP_URL + "status_receiver" inside try/except; logs success on a 2xx
response, a failure line otherwise; the handler logs and returns. -/
def status_sender (image_core_id status : Nat) (APP_URL : String)
    (t : Transport) : Except String SendResult :=
  let req : HttpPost := ⟨APP_URL ++ "status_receiver",
    .statusData image_core_id status⟩
  pyTry
    (match t with
     | .completes code =>
         .ok ⟨[req],
           [if 200 ≤ code ∧ code < 300 then
              .info "SUCCESS: status_sender successfully delivered"
            else
              .info "FAILURE: status_sender failed to deliver"]⟩
     | .raises e => .error e)
    (fun e => ⟨[req], [.error ("FAILURE: status_sender failed with exception " ++ e)]⟩)

/-- senders.py failure_sender: first calls status_sender with status=5,
then posts a description payload carrying "Error: " + error_message to
APP_URL + "description_receiver" inside its own try/except.  t1 is the
transport outcome of the status post, t2 of the description post. -/
def failure_sender (image_core_id : Nat) (error_message : String) (APP_URL : String)
    (t1 t2 : Transport) : Except String SendResult :=
  match status_sender image_core_id 5 APP_URL t1 with
  | .error e => .error e
  | .ok r1 =>
    let req : HttpPost := ⟨APP_URL ++ "description_receiver",
      .descriptionData image_core_id ("Error: " ++ error_message)⟩
    match pyTry
      (match t2 with
       | .completes code =>
           .ok ⟨[req],
             [if code = 200 then
                .info "SUCCESS: failure_sender successfully delivered error"
              else
                .info "FAILURE: failure_sender failed to deliver error"]⟩
       | .raises e => .error e)
      (fun e => ⟨[req], [.error ("FAILURE: failure_sender failed with exception " ++ e)]⟩) with
    | .ok r2 => .ok ⟨r1.requests ++ r2.requests, r1.logs ++ r2.logs⟩
    | .error e => .error e

/-- The single HTTP request a status_sender call attempts. -/
def statusRequest (image_core_id status : Nat) (APP_URL : String) : HttpPost :=
  ⟨APP_URL ++ "status_receiver", .statusData image_core_id status⟩

/-- The single HTTP request a description_sender call attempts. -/
def descriptionRequest (image_core_id : Nat) (description : String) (APP_URL : String) :
    HttpPost :=
  ⟨APP_URL ++ "description_receiver", .descriptionData image_core_id description⟩

/-- The two HTTP requests a failure_sender call attempts, in order. -/
def failureRequests (image_core_id : Nat) (error_message : String) (APP_URL : String) :
    List HttpPost :=
  [statusRequest image_core_id 5 APP_URL,
   descriptionRequest image_core_id ("Error: " ++ error_message) APP_URL]

/-- SELECT id, image_core_id, image_path, model, retry_count FROM jobs
ORDER BY id LIMIT 1, followed by fetchone: the row with the smallest id,
or none when the table is empty. -/
def peekOldest : Store → Option Job
  | [] => none
  | j :: rest =>
    match peekOldest rest with
    | none => some j
    | some k => if k.id < j.id then some k else some j

/-- DELETE FROM jobs WHERE id = job_id. -/
def deleteJob (s : Store) (job_id : Nat) : Store :=
  s.filter (fun j => j.id != job_id)

/-- The row update performed by
UPDATE jobs SET retry_count = retry_count + 1 WHERE id = job_id. -/
def bumpRetry (job_id : Nat) (j : Job) : Job :=
  if j.id = job_id then { j with retry_count := j.retry_count + 1 } else j

/-- jobs.py increment_retry_count: runs the UPDATE above, then
SELECT retry_count FROM jobs WHERE id = job_id with fetchone, returning
result[0] if result else 0. -/
def incrementRetryCount (s : Store) (job_id : Nat) : Store × Nat :=
  let s2 := s.map (bumpRetry job_id)
  (s2,
   match s2.find? (fun j => j.id == job_id) with
   | some j => j.retry_count
   | none => 0)

/-- Outcome of the image_to_text extraction call inside proccess_job:
it returns a description, or raises PermanentError or TransientError, or
raises some other exception (caught by the generic handler in
process_jobs). -/
inductive ExtractResult where
  | success (description : String)
  | permanentError (msg : String)
  | transientError (msg : String)
  | unexpectedError (msg : String)
deriving Repr, DecidableEq

/-- jobs.py handle_job_failure: sends the failure notification for
image_core_id and deletes the job row. -/
def handle_job_failure (s : Store) (job_id image_core_id : Nat)
    (error_message APP_URL : String) : Store × List HttpPost :=
  (deleteJob s job_id, failureRequests image_core_id error_message APP_URL)

/-- The retries-exhausted message built in process_jobs:
f"Max retries ({MAX_RETRY_ATTEMPTS}) exceeded. Last error: {e}". -/
def maxRetriesMsg (lastError : String) : String :=
  "Max retries (" ++ toString MAX_RETRY_ATTEMPTS ++ ") exceeded. Last error: " ++ lastError

/-- Python list indexing l[i], including negative indices counting from
the end; out of range gives none (an IndexError). -/
def pyListGet (l : List Nat) (i : Int) : Option Nat :=
  let j := if i < 0 then i + l.length else i
  if 0 ≤ j then l.get? j.toNat else none

/-- Result of the TransientError / generic-exception handler of
process_jobs: new store, HTTP requests issued, the sleep_time variable
after the handler (5 stands unchanged when the job is given up), and
whether the job was given up (max retries reached). -/
structure RetryOutcome where
  store : Store
  requests : List HttpPost
  sleep_time : Nat
  gaveUp : Bool
deriving Repr, DecidableEq

/-- The shared body of the two retryable-failure handlers in
process_jobs (except TransientError and except Exception, which differ
only in the warning log text): increment the retry count; if the new
count reaches MAX_RETRY_ATTEMPTS, call handle_job_failure with the
retries-exhausted message; otherwise set
sleep_time = RETRY_DELAYS[min(new_count - 1, len(RETRY_DELAYS) - 1)].
The index is computed over the integers as in Python; its value is
always ≥ -1, so the .getD default is never taken. -/
def handleTransientFailure (s : Store) (job_id image_core_id : Nat)
    (msg APP_URL : String) : RetryOutcome :=
  let r := incrementRetryCount s job_id
  if r.2 ≥ MAX_RETRY_ATTEMPTS then
    let d := handle_job_failure r.1 job_id image_core_id (maxRetriesMsg msg) APP_URL
    ⟨d.1, d.2, 5, true⟩
  else
    let delay_index : Int := min ((r.2 : Int) - 1) ((RETRY_DELAYS.length : Int) - 1)
    ⟨r.1, [], (pyListGet RETRY_DELAYS delay_index).getD 0, false⟩

/-- The Python substring test needle in hay. -/
def strIn (needle hay : String) : Bool :=
  decide (needle.toList <:+: hay.toList)

/-- The path handed to image_to_text in process_jobs:
"/app/public/memes/" + image_path if "tests" not in JOB_DB else image_path. -/
def inputImagePath (JOB_DB image_path : String) : String :=
  if strIn "tests" JOB_DB then image_path else "/app/public/memes/" ++ image_path

/-- Result of one iteration of the process_jobs loop body (the part under
the lock): the new store, the HTTP requests issued in order, the value of
the sleep_time variable at the end of the iteration, whether a job row was
fetched, and the id of the job that reached a terminal outcome this cycle
(deleted from the store), if any. -/
structure CycleOutput where
  store : Store
  requests : List HttpPost
  sleep_time : Nat
  jobFound : Bool
  completed : Option Nat
deriving Repr, DecidableEq

/-- One iteration of the process_jobs loop body, with the extraction
call abstracted as a function from (path, model) to its outcome.
sleep_time starts at 5; a fetched job first gets a status=2 request; then
the extraction outcome decides between the success path (description
request, status=3 request, DELETE), the PermanentError handler
(handle_job_failure) and the retryable handlers (handleTransientFailure). -/
def process_cycle (JOB_DB APP_URL : String)
    (extract : String → String → ExtractResult) (s : Store) : CycleOutput :=
  match peekOldest s with
  | none => ⟨s, [], 5, false, none⟩
  | some job =>
    let input_path := inputImagePath JOB_DB job.image_path
    let reqs0 := [statusRequest job.image_core_id 2 APP_URL]
    match extract input_path job.model with
    | .success description =>
        ⟨deleteJob s job.id,
         reqs0 ++ [descriptionRequest job.image_core_id description APP_URL,
                   statusRequest job.image_core_id 3 APP_URL],
         5, true, some job.id⟩
    | .permanentError msg =>
        let d := handle_job_failure s job.id job.image_core_id msg APP_URL
        ⟨d.1, reqs0 ++ d.2, 5, true, some job.id⟩
    | .transientError msg =>
        let r := handleTransientFailure s job.id job.image_core_id msg APP_URL
        ⟨r.store, reqs0 ++ r.requests, r.sleep_time, true,
         if r.gaveUp then some job.id else none⟩
    | .unexpectedError msg =>
        let r := handleTransientFailure s job.id job.image_core_id msg APP_URL
        ⟨r.store, reqs0 ++ r.requests, r.sleep_time, true,
         if r.gaveUp then some job.id else none⟩

/-- The seconds actually slept at the end of the iteration:
time.sleep(sleep_time) runs only when not job or sleep_time > 5. -/
def actualSleep (c : CycleOutput) : Nat :=
  if !c.jobFound || 5 < c.sleep_time then c.sleep_time else 0

/-- One full iteration of the process_jobs while True loop including the
outer try/except: an infrastructure exception (infra = some msg, for
example a failing sqlite3.connect) is caught by the outer handler, which
logs, closes the connection and sleeps 5 seconds, leaving the store
untouched; otherwise the loop body runs and the sleep rule applies.
Returns (new store, requests issued, seconds slept). -/
def process_cycle_top (JOB_DB APP_URL : String)
    (extract : String → String → ExtractResult) (infra : Option String)
    (s : Store) : Store × List HttpPost × Nat :=
  match infra with
  | some _ => (s, [], 5)
  | none =>
    let c := process_cycle JOB_DB APP_URL extract s
    (c.store, c.requests, actualSleep c)

/-- Per-iteration environment of the worker loop: whether an
infrastructure exception fires this iteration, and the behaviour of the
extraction call. -/
structure CycleEnv where
  infra : Option String
  extract : String → String → ExtractResult

/-- n iterations of the process_jobs loop under a per-iteration
environment schedule. -/
def runWorker (JOB_DB APP_URL : String) (env : Nat → CycleEnv) :
    Nat → Store → Store
  | 0, s => s
  | n + 1, s =>
      runWorker JOB_DB APP_URL env n
        (process_cycle_top JOB_DB APP_URL (env n).extract (env n).infra s).1

/-- The jobs table together with the AUTOINCREMENT counter: every id ever
assigned is smaller than next_id. -/
structure QueueState where
  store : Store
  next_id : Nat

/-- jobs table INSERT performed by the external enqueue operation: a new
row with retry_count = 0 and the next AUTOINCREMENT id. -/
def enqueueJob (q : QueueState) (image_core_id : Nat) (image_path model : String) :
    QueueState :=
  ⟨q.store ++ [⟨q.next_id, image_core_id, image_path, model, 0⟩], q.next_id + 1⟩

/-- One step of the system: either the external API enqueues a job, or the
worker runs one loop iteration under some environment. -/
inductive TraceStep where
  | enqueue (image_core_id : Nat) (image_path model : String)
  | cycle (env : CycleEnv)

/-- Effect of one trace step on the queue state, together with the id of
the job terminally completed in that step, if any. -/
def traceStep (JOB_DB APP_URL : String) (q : QueueState) :
    TraceStep → QueueState × Option Nat
  | .enqueue cid p m => (enqueueJob q cid p m, none)
  | .cycle env =>
    match env.infra with
    | some _ => (q, none)
    | none =>
      let c := process_cycle JOB_DB APP_URL env.extract q.store
      (⟨c.store, q.next_id⟩, c.completed)

/-- The ids of the jobs terminally completed along a trace, in order. -/
def traceRun (JOB_DB APP_URL : String) (q : QueueState) :
    List TraceStep → List Nat
  | [] => []
  | st :: rest =>
    match traceStep JOB_DB APP_URL q st with
    | (q2, some c) => c :: traceRun JOB_DB APP_URL q2 rest
    | (q2, none) => traceRun JOB_DB APP_URL q2 rest

/-- The ids of the rows of a store. -/
def storeIds (s : Store) : List Nat :=
  s.map Job.id

/-- Example store with one fresh job, used by witnesses. -/
def sampleStore : Store := [⟨1, 42, "a.jpg", "m", 0⟩]

/-- Example store with one job that has already been retried once. -/
def sampleStoreRetried : Store := [⟨1, 42, "a.jpg", "m", 1⟩]

theorem bumpRetry_id (i : Nat) (j : Job) : (bumpRetry i j).id = j.id := by
  unfold bumpRetry
  split <;> rfl

theorem storeIds_map_bump (s : Store) (i : Nat) :
    storeIds (s.map (bumpRetry i)) = storeIds s := by
  simp [storeIds, List.map_map, Function.comp_def, bumpRetry_id]

theorem mem_deleteJob {s : Store} {i : Nat} {k : Job} :
    k ∈ deleteJob s i ↔ k ∈ s ∧ k.id ≠ i := by
  simp [deleteJob, List.mem_filter]

theorem peekOldest_eq_none : ∀ {s : Store}, peekOldest s = none → s = [] := by
  intro s h
  cases s with
  | nil => rfl
  | cons a rest =>
    exfalso
    cases hr : peekOldest rest with
    | none => simp [peekOldest, hr] at h
    | some k =>
      simp only [peekOldest, hr] at h
      split at h <;> cases h

theorem peekOldest_mem : ∀ {s : Store} {j : Job}, peekOldest s = some j → j ∈ s := by
  intro s
  induction s with
  | nil => intro j h; cases h
  | cons a rest ih =>
    intro j h
    cases hr : peekOldest rest with
    | none =>
      simp only [peekOldest, hr] at h
      cases h
      exact List.mem_cons_self a rest
    | some k =>
      simp only [peekOldest, hr] at h
      by_cases hlt : k.id < a.id
      · rw [if_pos hlt] at h
        cases h
        exact List.mem_cons_of_mem a (ih hr)
      · rw [if_neg hlt] at h
        cases h
        exact List.mem_cons_self a rest

theorem peekOldest_min : ∀ {s : Store} {j : Job}, peekOldest s = some j →
    ∀ k ∈ s, j.id ≤ k.id := by
  intro s
  induction s with
  | nil => intro j h; cases h
  | cons a rest ih =>
    intro j h k hk
    cases hr : peekOldest rest with
    | none =>
      simp only [peekOldest, hr] at h
      cases h
      rcases List.mem_cons.mp hk with h1 | h1
      · rw [h1]
      · rw [peekOldest_eq_none hr] at h1
        cases h1
    | some m =>
      simp only [peekOldest, hr] at h
      by_cases hlt : m.id < a.id
      · rw [if_pos hlt] at h
        cases h
        rcases List.mem_cons.mp hk with h1 | h1
        · rw [h1]; exact Nat.le_of_lt hlt
        · exact ih hr k h1
      · rw [if_neg hlt] at h
        cases h
        rcases List.mem_cons.mp hk with h1 | h1
        · rw [h1]
        · exact Nat.le_trans (Nat.le_of_not_lt hlt) (ih hr k h1)

theorem incrementRetryCount_fst (s : Store) (i : Nat) :
    (incrementRetryCount s i).1 = s.map (bumpRetry i) := rfl

theorem incrementRetryCount_snd : ∀ {s : Store} {j : Job},
    (storeIds s).Nodup → j ∈ s →
    (incrementRetryCount s j.id).2 = j.retry_count + 1 := by
  intro s
  induction s with
  | nil => intro j _ hj; cases hj
  | cons a rest ih =>
    intro j hnd hj
    have hnd2 : a.id ∉ storeIds rest ∧ (storeIds rest).Nodup := by
      simpa [storeIds] using hnd
    by_cases hid : a.id = j.id
    · have hja : j = a := by
        rcases List.mem_cons.mp hj with h1 | h1
        · exact h1
        · exfalso
          exact hnd2.1 (hid ▸ (List.mem_map_of_mem Job.id h1))
      subst hja
      simp [incrementRetryCount, bumpRetry, List.find?, hid]
    · have hjr : j ∈ rest := by
        rcases List.mem_cons.mp hj with h1 | h1
        · exact absurd (congrArg Job.id h1).symm hid
        · exact h1
      have hne : ((bumpRetry j.id a).id == j.id) = false := by
        simp [bumpRetry_id, hid]
      have := ih hnd2.2 hjr
      simpa [incrementRetryCount, List.find?, hne] using this

/-- C5: for every input and every transport outcome (a response with any
status code, or a raised exception), each of status_sender,
description_sender and failure_sender returns normally (an ok value of
the Except) and never propagates an exception to its caller. -/
theorem C5_senders_never_raise (image_core_id status : Nat)
    (description error_message APP_URL : String) (t t1 t2 : Transport) :
    (∃ r, status_sender image_core_id status APP_URL t = .ok r) ∧
    (∃ r, description_sender image_core_id description APP_URL t = .ok r) ∧
    (∃ r, failure_sender image_core_id error_message APP_URL t1 t2 = .ok r) := by
  refine ⟨?_, ?_, ?_⟩ <;> cases t <;> cases t1 <;> cases t2 <;> exact ⟨_, rfl⟩

/-- C7: for every correlation id and failure message, failure_sender
returns normally and its attempted requests are exactly the composition,
in order, of the one request of a status_sender call with status 5
followed by one description request whose text is the string "Error: "
concatenated with the message. -/
theorem C7_failure_is_status5_then_error_description (image_core_id : Nat)
    (error_message APP_URL : String) (t1 t2 : Transport) :
    ∃ r r1, failure_sender image_core_id error_message APP_URL t1 t2 = .ok r ∧
      status_sender image_core_id 5 APP_URL t1 = .ok r1 ∧
      r1.requests = [statusRequest image_core_id 5 APP_URL] ∧
      r.requests = r1.requests ++
        [descriptionRequest image_core_id ("Error: " ++ error_message) APP_URL] := by
  cases t1 <;> cases t2 <;> exact ⟨_, _, rfl, rfl, rfl, rfl⟩

/-- C2 (failing input): on a fresh job whose extraction fails
transiently, the first retry attempt computes the backoff value
RETRY_DELAYS[0] = 5 into sleep_time, yet the worker does not sleep at all
before the next poll cycle, because time.sleep only runs when
sleep_time > 5 or no job was fetched; the second attempt computes 10 and
does sleep 10 seconds. -/
theorem C2_first_retry_backoff_not_slept :
    (process_cycle "jobs.db" "http://app/"
        (fun _ _ => .transientError "net down") sampleStore).sleep_time = 5 ∧
    actualSleep (process_cycle "jobs.db" "http://app/"
        (fun _ _ => .transientError "net down") sampleStore) = 0 ∧
    (process_cycle "jobs.db" "http://app/"
        (fun _ _ => .transientError "net down") sampleStoreRetried).sleep_time = 10 ∧
    actualSleep (process_cycle "jobs.db" "http://app/"
        (fun _ _ => .transientError "net down") sampleStoreRetried) = 10 := by
  decide

/-- C6: an exception raised inside the cycle that reaches the outer
handler of the while True loop (an infrastructure error, not a classified
extraction error) leaves the store untouched, issues no request, is
followed by a 5 second sleep, and the loop body is a total function, so
the worker resumes; iterating the loop any number of times under a
schedule of such failing cycles leaves the store unchanged and never
terminates the worker. -/
theorem C6_infra_errors_never_kill_worker (db url : String)
    (extract : String → String → ExtractResult) (e : String) (s : Store)
    (env : Nat → CycleEnv) (hinfra : ∀ k, (env k).infra.isSome) (n : Nat) :
    process_cycle_top db url extract (some e) s = (s, [], 5) ∧
    runWorker db url env n s = s := by
  constructor
  · rfl
  · induction n with
    | zero => rfl
    | succ m ih =>
      rw [runWorker]
      obtain ⟨msg, hmsg⟩ := Option.isSome_iff_exists.mp (hinfra m)
      rw [hmsg]
      exact ih

/-- Witness for C6 at a concrete schedule of three failing cycles over
the sample store. -/
theorem C6_infra_errors_never_kill_worker_witness :
    process_cycle_top "jobs.db" "http://app/"
        (fun _ _ => .success "") (some "db locked") sampleStore = (sampleStore, [], 5) ∧
    runWorker "jobs.db" "http://app/"
        (fun _ => ⟨some "db locked", fun _ _ => .success ""⟩) 3 sampleStore = sampleStore :=
  C6_infra_errors_never_kill_worker "jobs.db" "http://app/"
    (fun _ _ => .success "") "db locked" sampleStore
    (fun _ => ⟨some "db locked", fun _ _ => .success ""⟩) (fun _ => rfl) 3

/-- C9: incrementing the retry count of a job id that is not present in
the jobs table leaves the table unchanged and returns 0 rather than
raising; 0 is below MAX_RETRY_ATTEMPTS, so the retryable-failure handler
for such a job issues no failure notification, does not give the job up,
and leaves the store unchanged. -/
theorem C9_increment_absent_job (s : Store) (i image_core_id : Nat)
    (msg APP_URL : String) (hi : i ∉ storeIds s) :
    incrementRetryCount s i = (s, 0) ∧
    0 < MAX_RETRY_ATTEMPTS ∧
    (handleTransientFailure s i image_core_id msg APP_URL).store = s ∧
    (handleTransientFailure s i image_core_id msg APP_URL).requests = [] ∧
    (handleTransientFailure s i image_core_id msg APP_URL).gaveUp = false := by
  have hmap : s.map (bumpRetry i) = s := by
    have h1 : s.map (bumpRetry i) = s.map id := by
      apply List.map_congr_left
      intro j hj
      have : j.id ≠ i := fun h => hi (h ▸ List.mem_map_of_mem Job.id hj)
      simp [bumpRetry, this]
    rw [h1, List.map_id]
  have hfind : s.find? (fun j => j.id == i) = none := by
    apply List.find?_eq_none.mpr
    intro j hj
    have : j.id ≠ i := fun h => hi (h ▸ List.mem_map_of_mem Job.id hj)
    simpa using this
  have hinc : incrementRetryCount s i = (s, 0) := by
    simp only [incrementRetryCount, hfind, hmap]
  refine ⟨hinc, by decide, ?_, ?_, ?_⟩ <;>
    simp [handleTransientFailure, hinc, MAX_RETRY_ATTEMPTS]

theorem process_cycle_success {db url : String}
    {ex : String → String → ExtractResult} {s : Store} {j : Job} {d : String}
    (hp : peekOldest s = some j)
    (hres : ex (inputImagePath db j.image_path) j.model = .success d) :
    process_cycle db url ex s =
      ⟨deleteJob s j.id,
       [statusRequest j.image_core_id 2 url,
        descriptionRequest j.image_core_id d url,
        statusRequest j.image_core_id 3 url],
       5, true, some j.id⟩ := by
  simp [process_cycle, hp, hres]

theorem process_cycle_permanent {db url : String}
    {ex : String → String → ExtractResult} {s : Store} {j : Job} {msg : String}
    (hp : peekOldest s = some j)
    (hres : ex (inputImagePath db j.image_path) j.model = .permanentError msg) :
    process_cycle db url ex s =
      ⟨deleteJob s j.id,
       statusRequest j.image_core_id 2 url :: failureRequests j.image_core_id msg url,
       5, true, some j.id⟩ := by
  simp [process_cycle, hp, hres, handle_job_failure]

theorem process_cycle_retryable {db url : String}
    {ex : String → String → ExtractResult} {s : Store} {j : Job} {msg : String}
    (hp : peekOldest s = some j)
    (hres : ex (inputImagePath db j.image_path) j.model = .transientError msg ∨
            ex (inputImagePath db j.image_path) j.model = .unexpectedError msg) :
    process_cycle db url ex s =
      ⟨(handleTransientFailure s j.id j.image_core_id msg url).store,
       statusRequest j.image_core_id 2 url ::
         (handleTransientFailure s j.id j.image_core_id msg url).requests,
       (handleTransientFailure s j.id j.image_core_id msg url).sleep_time, true,
       if (handleTransientFailure s j.id j.image_core_id msg url).gaveUp then some j.id
       else none⟩ := by
  rcases hres with h | h <;> simp [process_cycle, hp, h]

theorem handleTransientFailure_exhausted {s : Store} {jid cid : Nat} {msg url : String}
    (h : (incrementRetryCount s jid).2 ≥ MAX_RETRY_ATTEMPTS) :
    handleTransientFailure s jid cid msg url =
      ⟨deleteJob (s.map (bumpRetry jid)) jid,
       failureRequests cid (maxRetriesMsg msg) url, 5, true⟩ := by
  simp only [handleTransientFailure, handle_job_failure, incrementRetryCount_fst]
  rw [if_pos h]

theorem handleTransientFailure_below {s : Store} {jid cid : Nat} {msg url : String}
    (h : ¬ (incrementRetryCount s jid).2 ≥ MAX_RETRY_ATTEMPTS) :
    (handleTransientFailure s jid cid msg url).store = s.map (bumpRetry jid) ∧
    (handleTransientFailure s jid cid msg url).requests = [] ∧
    (handleTransientFailure s jid cid msg url).gaveUp = false := by
  refine ⟨?_, ?_, ?_⟩ <;>
    · simp only [handleTransientFailure, incrementRetryCount_fst]
      rw [if_neg h]

/-- C10: the worker does not pass the stored path verbatim to extraction:
when the database path does not contain the substring "tests" the path
handed to the extraction call is "/app/public/memes/" prepended to the
stored image_path, and only a database path containing "tests" leaves the
stored image_path unchanged; the cycle depends on the extraction function
only through its value at that computed path. -/
theorem C10_extraction_path_prefixed (db url path : String) :
    (strIn "tests" db = false → inputImagePath db path = "/app/public/memes/" ++ path) ∧
    (strIn "tests" db = true → inputImagePath db path = path) ∧
    (∀ (ex1 ex2 : String → String → ExtractResult) (s : Store) (j : Job),
      peekOldest s = some j →
      ex1 (inputImagePath db j.image_path) j.model
          = ex2 (inputImagePath db j.image_path) j.model →
      process_cycle db url ex1 s = process_cycle db url ex2 s) := by
  refine ⟨?_, ?_, ?_⟩
  · intro h; simp [inputImagePath, h]
  · intro h; simp [inputImagePath, h]
  · intro ex1 ex2 s j hp heq
    simp only [process_cycle, hp]
    rw [heq]

/-- Witness for C10: jobs.db does not contain tests, tests/jobs.db does,
and two extraction functions agreeing at the prefixed path give equal
cycles on the sample store. -/
theorem C10_extraction_path_prefixed_witness :
    inputImagePath "jobs.db" "x.png" = "/app/public/memes/" ++ "x.png" ∧
    inputImagePath "tests/jobs.db" "x.png" = "x.png" ∧
    process_cycle "jobs.db" "http://app/" (fun _ _ => .success "a") sampleStore =
      process_cycle "jobs.db" "http://app/"
        (fun p _ => if p = "/app/public/memes/a.jpg" then .success "a"
                    else .permanentError "z") sampleStore :=
  ⟨(C10_extraction_path_prefixed "jobs.db" "http://app/" "x.png").1 (by decide),
   (C10_extraction_path_prefixed "tests/jobs.db" "http://app/" "x.png").2.1 (by decide),
   (C10_extraction_path_prefixed "jobs.db" "http://app/" "x.png").2.2
     (fun _ _ => .success "a")
     (fun p _ => if p = "/app/public/memes/a.jpg" then .success "a"
                 else .permanentError "z")
     sampleStore ⟨1, 42, "a.jpg", "m", 0⟩ rfl (by decide)⟩

/-- Witness for C9 with id 7 absent from a one-row store. -/
theorem C9_increment_absent_job_witness :
    incrementRetryCount sampleStore 7 = (sampleStore, 0) ∧
    0 < MAX_RETRY_ATTEMPTS ∧
    (handleTransientFailure sampleStore 7 9 "gone" "http://app/").store = sampleStore ∧
    (handleTransientFailure sampleStore 7 9 "gone" "http://app/").requests = [] ∧
    (handleTransientFailure sampleStore 7 9 "gone" "http://app/").gaveUp = false :=
  C9_increment_absent_job sampleStore 7 9 "gone" "http://app/" (by decide)

theorem mem_handleTransientFailure_store {s : Store} {jid cid : Nat} {msg url : String}
    {k : Job} (hk : k ∈ (handleTransientFailure s jid cid msg url).store) :
    k.id ∈ storeIds s := by
  by_cases h : (incrementRetryCount s jid).2 ≥ MAX_RETRY_ATTEMPTS
  · rw [handleTransientFailure_exhausted h] at hk
    have h1 := (mem_deleteJob.mp hk).1
    have h2 : k.id ∈ storeIds (s.map (bumpRetry jid)) := List.mem_map_of_mem Job.id h1
    rwa [storeIds_map_bump] at h2
  · rw [(handleTransientFailure_below h).1] at hk
    have h2 : k.id ∈ storeIds (s.map (bumpRetry jid)) := List.mem_map_of_mem Job.id hk
    rwa [storeIds_map_bump] at h2

theorem mem_store_process_cycle {db url : String}
    {ex : String → String → ExtractResult} {s : Store} {k : Job}
    (hk : k ∈ (process_cycle db url ex s).store) : k.id ∈ storeIds s := by
  cases hp : peekOldest s with
  | none =>
    simp only [process_cycle, hp] at hk
    exact List.mem_map_of_mem Job.id hk
  | some j =>
    cases hx : ex (inputImagePath db j.image_path) j.model with
    | success d =>
      rw [process_cycle_success hp hx] at hk
      exact List.mem_map_of_mem Job.id (mem_deleteJob.mp hk).1
    | permanentError msg =>
      rw [process_cycle_permanent hp hx] at hk
      exact List.mem_map_of_mem Job.id (mem_deleteJob.mp hk).1
    | transientError msg =>
      rw [process_cycle_retryable hp (Or.inl hx)] at hk
      exact mem_handleTransientFailure_store hk
    | unexpectedError msg =>
      rw [process_cycle_retryable hp (Or.inr hx)] at hk
      exact mem_handleTransientFailure_store hk

theorem le_of_id_mem_storeIds {s : Store} {j : Job} (hp : peekOldest s = some j)
    {n : Nat} (hn : n ∈ storeIds s) : j.id ≤ n := by
  obtain ⟨k0, hk0, hid⟩ := List.mem_map.mp hn
  exact hid ▸ peekOldest_min hp k0 hk0

theorem completed_process_cycle {db url : String}
    {ex : String → String → ExtractResult} {s : Store} {c : Nat}
    (hc : (process_cycle db url ex s).completed = some c) :
    (∃ j, peekOldest s = some j ∧ j.id = c) ∧
    (∀ k ∈ (process_cycle db url ex s).store, c < k.id) := by
  cases hp : peekOldest s with
  | none => simp [process_cycle, hp] at hc
  | some j =>
    have hmin : ∀ k ∈ (process_cycle db url ex s).store, k.id ≠ c → c < k.id := by
      intro k hk hne
      have h1 : j.id ≤ k.id := le_of_id_mem_storeIds hp (mem_store_process_cycle hk)
      cases hx : ex (inputImagePath db j.image_path) j.model with
      | success d =>
        rw [process_cycle_success hp hx] at hc
        cases hc
        exact Nat.lt_of_le_of_ne h1 (fun h => hne h.symm)
      | permanentError msg =>
        rw [process_cycle_permanent hp hx] at hc
        cases hc
        exact Nat.lt_of_le_of_ne h1 (fun h => hne h.symm)
      | transientError msg =>
        rw [process_cycle_retryable hp (Or.inl hx)] at hc
        dsimp only at hc
        split at hc
        · cases hc
          exact Nat.lt_of_le_of_ne h1 (fun h => hne h.symm)
        · cases hc
      | unexpectedError msg =>
        rw [process_cycle_retryable hp (Or.inr hx)] at hc
        dsimp only at hc
        split at hc
        · cases hc
          exact Nat.lt_of_le_of_ne h1 (fun h => hne h.symm)
        · cases hc
    have hjc : j.id = c := by
      cases hx : ex (inputImagePath db j.image_path) j.model with
      | success d =>
        rw [process_cycle_success hp hx] at hc
        cases hc; rfl
      | permanentError msg =>
        rw [process_cycle_permanent hp hx] at hc
        cases hc; rfl
      | transientError msg =>
        rw [process_cycle_retryable hp (Or.inl hx)] at hc
        dsimp only at hc
        split at hc
        · cases hc; rfl
        · cases hc
      | unexpectedError msg =>
        rw [process_cycle_retryable hp (Or.inr hx)] at hc
        dsimp only at hc
        split at hc
        · cases hc; rfl
        · cases hc
    refine ⟨⟨j, by simp [hp], hjc⟩, ?_⟩
    intro k hk
    by_cases hne : k.id = c
    · exfalso
      -- a row with the completed id cannot remain: every terminal branch
      -- deletes that id from the store
      cases hx : ex (inputImagePath db j.image_path) j.model with
      | success d =>
        rw [process_cycle_success hp hx] at hk
        exact (mem_deleteJob.mp hk).2 (hjc ▸ hne)
      | permanentError msg =>
        rw [process_cycle_permanent hp hx] at hk
        exact (mem_deleteJob.mp hk).2 (hjc ▸ hne)
      | transientError msg =>
        rw [process_cycle_retryable hp (Or.inl hx)] at hk hc
        dsimp only at hk hc
        by_cases hge : (incrementRetryCount s j.id).2 ≥ MAX_RETRY_ATTEMPTS
        · rw [handleTransientFailure_exhausted hge] at hk
          exact (mem_deleteJob.mp hk).2 (hjc ▸ hne)
        · rw [(handleTransientFailure_below hge).2.2] at hc
          cases hc
      | unexpectedError msg =>
        rw [process_cycle_retryable hp (Or.inr hx)] at hk hc
        dsimp only at hk hc
        by_cases hge : (incrementRetryCount s j.id).2 ≥ MAX_RETRY_ATTEMPTS
        · rw [handleTransientFailure_exhausted hge] at hk
          exact (mem_deleteJob.mp hk).2 (hjc ▸ hne)
        · rw [(handleTransientFailure_below hge).2.2] at hc
          cases hc
    · exact hmin k hk hne

theorem traceRun_chain (db url : String) :
    ∀ (steps : List TraceStep) (q : QueueState) (b : Nat),
    (∀ j ∈ q.store, j.id < q.next_id) → (∀ j ∈ q.store, b < j.id) → b < q.next_id →
    (∀ c ∈ traceRun db url q steps, b < c) ∧
    List.Chain' (· < ·) (traceRun db url q steps) := by
  intro steps
  induction steps with
  | nil =>
    intro q b _ _ _
    exact ⟨fun c hc => absurd hc (List.not_mem_nil c), List.chain'_nil⟩
  | cons st rest ih =>
    intro q b hinv hb hbn
    cases st with
    | enqueue cid p m =>
      have hrec := ih (enqueueJob q cid p m) b
        (by
          intro j hj
          rcases List.mem_append.mp hj with h | h
          · exact Nat.lt_succ_of_lt (hinv j h)
          · rcases List.mem_singleton.mp h with rfl
            exact Nat.lt_succ_self _)
        (by
          intro j hj
          rcases List.mem_append.mp hj with h | h
          · exact hb j h
          · rcases List.mem_singleton.mp h with rfl
            exact hbn)
        (Nat.lt_succ_of_lt hbn)
      simpa [traceRun, traceStep] using hrec
    | cycle env =>
      cases hinf : env.infra with
      | some e =>
        have hrec := ih q b hinv hb hbn
        simpa [traceRun, traceStep, hinf] using hrec
      | none =>
        cases hcomp : (process_cycle db url env.extract q.store).completed with
        | none =>
          have hrec := ih ⟨(process_cycle db url env.extract q.store).store, q.next_id⟩ b
            (by
              intro j hj
              obtain ⟨k0, hk0, hid⟩ := List.mem_map.mp (mem_store_process_cycle hj)
              exact hid ▸ hinv k0 hk0)
            (by
              intro j hj
              obtain ⟨k0, hk0, hid⟩ := List.mem_map.mp (mem_store_process_cycle hj)
              exact hid ▸ hb k0 hk0)
            hbn
          simpa [traceRun, traceStep, hinf, hcomp] using hrec
        | some c =>
          obtain ⟨⟨j, hp, hjc⟩, hgt⟩ := completed_process_cycle hcomp
          have hbc : b < c := hjc ▸ hb j (peekOldest_mem hp)
          have hcn : c < q.next_id := hjc ▸ hinv j (peekOldest_mem hp)
          have hrec := ih ⟨(process_cycle db url env.extract q.store).store, q.next_id⟩ c
            (by
              intro k hk
              obtain ⟨k0, hk0, hid⟩ := List.mem_map.mp (mem_store_process_cycle hk)
              exact hid ▸ hinv k0 hk0)
            (by intro k hk; exact hgt k hk)
            hcn
          have hred : traceRun db url q (.cycle env :: rest) =
              c :: traceRun db url ⟨(process_cycle db url env.extract q.store).store,
                q.next_id⟩ rest := by
            simp [traceRun, traceStep, hinf, hcomp]
          rw [hred]
          constructor
          · intro x hx
            rcases List.mem_cons.mp hx with rfl | hx2
            · exact hbc
            · exact Nat.lt_trans hbc (hrec.1 x hx2)
          · refine List.chain'_cons'.mpr ⟨?_, hrec.2⟩
            intro y hy
            exact hrec.1 y (List.mem_of_mem_head? hy)

/-- C4: the worker dequeues the row with the smallest id among those in
the store, retries never change a job id (the retry-count increment
preserves the id list), and along any trace of enqueues and worker cycles
started from the empty table the sequence of terminally completed job ids
is strictly increasing. -/
theorem C4_fifo_completion_order (db url : String) (steps : List TraceStep) :
    (∀ (s : Store) (j : Job), peekOldest s = some j →
       j ∈ s ∧ ∀ k ∈ s, j.id ≤ k.id) ∧
    (∀ (s : Store) (i : Nat), storeIds (incrementRetryCount s i).1 = storeIds s) ∧
    List.Chain' (· < ·) (traceRun db url ⟨[], 1⟩ steps) :=
  ⟨fun _ _ hp => ⟨peekOldest_mem hp, peekOldest_min hp⟩,
   fun s i => storeIds_map_bump s i,
   (traceRun_chain db url steps ⟨[], 1⟩ 0
      (fun j hj => absurd hj (List.not_mem_nil j))
      (fun j hj => absurd hj (List.not_mem_nil j))
      Nat.one_pos).2⟩

/-- Trace used by the C4 witness: two enqueues, a successful cycle, a
transient-failure cycle, an infrastructure-failure cycle and a final
successful cycle. -/
def sampleSteps : List TraceStep :=
  [.enqueue 10 "a.jpg" "m", .enqueue 11 "b.jpg" "m",
   .cycle ⟨none, fun _ _ => .success "ok"⟩,
   .cycle ⟨none, fun _ _ => .transientError "net down"⟩,
   .cycle ⟨some "db locked", fun _ _ => .success "ok"⟩,
   .cycle ⟨none, fun _ _ => .success "ok"⟩]

/-- Witness for C4 on the sample store and the sample trace. -/
theorem C4_fifo_completion_order_witness :
    ((⟨1, 42, "a.jpg", "m", 0⟩ : Job) ∈ sampleStore ∧
      ∀ k ∈ sampleStore, 1 ≤ k.id) ∧
    storeIds (incrementRetryCount sampleStore 1).1 = storeIds sampleStore ∧
    List.Chain' (· < ·) (traceRun "jobs.db" "http://app/" ⟨[], 1⟩ sampleSteps) :=
  ⟨(C4_fifo_completion_order "jobs.db" "http://app/" sampleSteps).1
     sampleStore ⟨1, 42, "a.jpg", "m", 0⟩ rfl,
   (C4_fifo_completion_order "jobs.db" "http://app/" sampleSteps).2.1 sampleStore 1,
   (C4_fifo_completion_order "jobs.db" "http://app/" sampleSteps).2.2⟩

/-- C8: when extraction succeeds with the empty string, the worker treats
it as success: the cycle issues a description request carrying "", then a
status=3 request, deletes the job, issues no status=5 request, and leaves
every remaining row an unchanged original row (no retry increment). -/
theorem C8_empty_description_is_success (db url : String)
    (ex : String → String → ExtractResult) (s : Store) (j : Job)
    (hp : peekOldest s = some j)
    (hres : ex (inputImagePath db j.image_path) j.model = .success "") :
    (process_cycle db url ex s).requests =
      [statusRequest j.image_core_id 2 url,
       descriptionRequest j.image_core_id "" url,
       statusRequest j.image_core_id 3 url] ∧
    (process_cycle db url ex s).store = deleteJob s j.id ∧
    (∀ k ∈ (process_cycle db url ex s).store, k ∈ s) ∧
    (process_cycle db url ex s).requests.countP
      (fun r => match r.payload with | .statusData _ st => st == 5 | _ => false) = 0 := by
  rw [process_cycle_success hp hres]
  refine ⟨rfl, rfl, ?_, rfl⟩
  intro k hk
  exact (mem_deleteJob.mp hk).1

/-- Witness for C8 on the sample store. -/
theorem C8_empty_description_is_success_witness :
    (process_cycle "jobs.db" "http://app/" (fun _ _ => .success "") sampleStore).requests =
      [statusRequest 42 2 "http://app/", descriptionRequest 42 "" "http://app/",
       statusRequest 42 3 "http://app/"] ∧
    (process_cycle "jobs.db" "http://app/" (fun _ _ => .success "") sampleStore).store =
      deleteJob sampleStore 1 ∧
    (∀ k ∈ (process_cycle "jobs.db" "http://app/"
        (fun _ _ => .success "") sampleStore).store, k ∈ sampleStore) ∧
    (process_cycle "jobs.db" "http://app/"
        (fun _ _ => .success "") sampleStore).requests.countP
      (fun r => match r.payload with | .statusData _ st => st == 5 | _ => false) = 0 :=
  C8_empty_description_is_success "jobs.db" "http://app/" (fun _ _ => .success "")
    sampleStore ⟨1, 42, "a.jpg", "m", 0⟩ rfl rfl

/-- C3: a Permanent extraction failure on a fresh job (retry count 0)
performs zero retry-count increments (the new table is exactly the old
one minus the job row), issues exactly one failure notification (one
status=5 request) for the correlation id, and deletes the job. -/
theorem C3_permanent_failure_fresh_job (db url msg : String)
    (ex : String → String → ExtractResult) (s : Store) (j : Job)
    (hp : peekOldest s = some j) (_h0 : j.retry_count = 0)
    (hres : ex (inputImagePath db j.image_path) j.model = .permanentError msg) :
    (process_cycle db url ex s).requests =
      statusRequest j.image_core_id 2 url ::
        failureRequests j.image_core_id msg url ∧
    (process_cycle db url ex s).requests.countP
      (fun r => match r.payload with | .statusData _ st => st == 5 | _ => false) = 1 ∧
    (process_cycle db url ex s).store = deleteJob s j.id ∧
    (∀ k ∈ (process_cycle db url ex s).store, k ∈ s) := by
  rw [process_cycle_permanent hp hres]
  refine ⟨rfl, rfl, rfl, ?_⟩
  intro k hk
  exact (mem_deleteJob.mp hk).1

/-- Witness for C3 on the sample store. -/
theorem C3_permanent_failure_fresh_job_witness :
    (process_cycle "jobs.db" "http://app/"
        (fun _ _ => .permanentError "bad file") sampleStore).requests =
      statusRequest 42 2 "http://app/" :: failureRequests 42 "bad file" "http://app/" ∧
    (process_cycle "jobs.db" "http://app/"
        (fun _ _ => .permanentError "bad file") sampleStore).requests.countP
      (fun r => match r.payload with | .statusData _ st => st == 5 | _ => false) = 1 ∧
    (process_cycle "jobs.db" "http://app/"
        (fun _ _ => .permanentError "bad file") sampleStore).store =
      deleteJob sampleStore 1 ∧
    (∀ k ∈ (process_cycle "jobs.db" "http://app/"
        (fun _ _ => .permanentError "bad file") sampleStore).store, k ∈ sampleStore) :=
  C3_permanent_failure_fresh_job "jobs.db" "http://app/" "bad file"
    (fun _ _ => .permanentError "bad file") sampleStore ⟨1, 42, "a.jpg", "m", 0⟩
    rfl rfl rfl

/-- C1: a transient (or unclassified) extraction failure increments the
retry count of the dequeued job by exactly 1; if the resulting count
reaches MAX_RETRY_ATTEMPTS the cycle issues the failure notification with
the retries-exhausted message carrying the last error and deletes the
job, and otherwise the cycle issues no failure notification (its only
request is the initial status=2) and the job remains present with the
incremented count. -/
theorem C1_transient_retry_policy (db url msg : String)
    (ex : String → String → ExtractResult) (s : Store) (j : Job)
    (hnd : (storeIds s).Nodup) (hp : peekOldest s = some j)
    (hres : ex (inputImagePath db j.image_path) j.model = .transientError msg ∨
            ex (inputImagePath db j.image_path) j.model = .unexpectedError msg) :
    (incrementRetryCount s j.id).2 = j.retry_count + 1 ∧
    (if j.retry_count + 1 ≥ MAX_RETRY_ATTEMPTS then
       (process_cycle db url ex s).requests =
         statusRequest j.image_core_id 2 url ::
           failureRequests j.image_core_id (maxRetriesMsg msg) url ∧
       (∀ k ∈ (process_cycle db url ex s).store, k.id ≠ j.id)
     else
       (process_cycle db url ex s).requests = [statusRequest j.image_core_id 2 url] ∧
       { j with retry_count := j.retry_count + 1 } ∈ (process_cycle db url ex s).store) := by
  have hcount := incrementRetryCount_snd hnd (peekOldest_mem hp)
  refine ⟨hcount, ?_⟩
  rw [process_cycle_retryable hp hres]
  by_cases hge : j.retry_count + 1 ≥ MAX_RETRY_ATTEMPTS
  · rw [if_pos hge]
    have hx : (incrementRetryCount s j.id).2 ≥ MAX_RETRY_ATTEMPTS := by
      rw [hcount]; exact hge
    rw [handleTransientFailure_exhausted hx]
    refine ⟨rfl, ?_⟩
    intro k hk
    exact (mem_deleteJob.mp hk).2
  · rw [if_neg hge]
    have hx : ¬ (incrementRetryCount s j.id).2 ≥ MAX_RETRY_ATTEMPTS := by
      rw [hcount]; exact hge
    obtain ⟨hst, hrq, _⟩ := @handleTransientFailure_below s j.id j.image_core_id msg url hx
    constructor
    · show statusRequest j.image_core_id 2 url ::
        (handleTransientFailure s j.id j.image_core_id msg url).requests = _
      rw [hrq]
    · show _ ∈ (handleTransientFailure s j.id j.image_core_id msg url).store
      rw [hst]
      have hb : bumpRetry j.id j = { j with retry_count := j.retry_count + 1 } := by
        simp [bumpRetry]
      rw [← hb]
      exact List.mem_map_of_mem (bumpRetry j.id) (peekOldest_mem hp)

/-- Witness for C1: a fresh job (count becomes 1, below the limit) and a
twice-retried job (count becomes 3, the limit). -/
theorem C1_transient_retry_policy_witness :
    ((incrementRetryCount sampleStore 1).2 = 1 ∧
     (if 1 ≥ MAX_RETRY_ATTEMPTS then
        (process_cycle "jobs.db" "http://app/"
            (fun _ _ => .transientError "net down") sampleStore).requests =
          statusRequest 42 2 "http://app/" ::
            failureRequests 42 (maxRetriesMsg "net down") "http://app/" ∧
        (∀ k ∈ (process_cycle "jobs.db" "http://app/"
            (fun _ _ => .transientError "net down") sampleStore).store, k.id ≠ 1)
      else
        (process_cycle "jobs.db" "http://app/"
            (fun _ _ => .transientError "net down") sampleStore).requests =
          [statusRequest 42 2 "http://app/"] ∧
        (⟨1, 42, "a.jpg", "m", 1⟩ : Job) ∈ (process_cycle "jobs.db" "http://app/"
            (fun _ _ => .transientError "net down") sampleStore).store)) ∧
    ((incrementRetryCount [⟨1, 42, "a.jpg", "m", 2⟩] 1).2 = 3 ∧
     (if 3 ≥ MAX_RETRY_ATTEMPTS then
        (process_cycle "jobs.db" "http://app/"
            (fun _ _ => .transientError "net down") [⟨1, 42, "a.jpg", "m", 2⟩]).requests =
          statusRequest 42 2 "http://app/" ::
            failureRequests 42 (maxRetriesMsg "net down") "http://app/" ∧
        (∀ k ∈ (process_cycle "jobs.db" "http://app/"
            (fun _ _ => .transientError "net down") [⟨1, 42, "a.jpg", "m", 2⟩]).store,
          k.id ≠ 1)
      else
        (process_cycle "jobs.db" "http://app/"
            (fun _ _ => .transientError "net down") [⟨1, 42, "a.jpg", "m", 2⟩]).requests =
          [statusRequest 42 2 "http://app/"] ∧
        (⟨1, 42, "a.jpg", "m", 3⟩ : Job) ∈ (process_cycle "jobs.db" "http://app/"
            (fun _ _ => .transientError "net down") [⟨1, 42, "a.jpg", "m", 2⟩]).store)) :=
  ⟨C1_transient_retry_policy "jobs.db" "http://app/" "net down"
      (fun _ _ => .transientError "net down") sampleStore ⟨1, 42, "a.jpg", "m", 0⟩
      (by decide) rfl (Or.inl rfl),
   C1_transient_retry_policy "jobs.db" "http://app/" "net down"
      (fun _ _ => .transientError "net down") [⟨1, 42, "a.jpg", "m", 2⟩]
      ⟨1, 42, "a.jpg", "m", 2⟩ (by decide) rfl (Or.inl rfl)⟩

end MemeSearch
